import Mathlib

/-!
Verification development for the pyscfcli configuration-to-call translator
(`pyscfcli/cli.py`).  The Python source is shallowly embedded: Python dicts
become association lists, Python objects become a `PyVal.obj` carrying an
attribute association list, and the handler methods of `_Task` become Lean
functions over these types.  Fallible Python code (raised exceptions) is
modelled with `Except String`.
-/

namespace Pyscfcli

/-- The reserved stage-body keys, from `_PHONY = ('args', 'kwargs', 'results')`
(cli.py line 42). -/
def _PHONY : List String := ["args", "kwargs", "results"]

/-- The fixed mean-field method name set `_SCF_METHODS` (cli.py lines 44-49),
including the `KORKS` entry exactly as it is spelled in the source. -/
def _SCF_METHODS : List String :=
  ["HF", "RHF", "ROHF", "UHF", "DHF",
   "KS", "RKS", "ROKS", "UKS", "DFT",
   "KHF", "KRHF", "KROHF", "KUHF",
   "KKS", "KRKS", "KORKS", "KUKS", "KDFT"]

/-- Boolean membership of a string in a list of strings (Python `in`). -/
def keyMem (t : String) : List String → Bool
  | [] => false
  | k :: ks => if k = t then true else keyMem t ks

/-- Boolean membership of a character in a list of characters. -/
def charMem (c : Char) : List Char → Bool
  | [] => false
  | d :: ds => if d = c then true else charMem c ds

/-- Every character of the list is a decimal digit. -/
def allDigit : List Char → Bool
  | [] => true
  | c :: cs => c.isDigit && allDigit cs

/-- No character of the list is a decimal digit. -/
def allNonDigit : List Char → Bool
  | [] => true
  | c :: cs => !c.isDigit && allNonDigit cs

/-- Python `str.split(sep)` for a one-character separator, on character
lists: splits at every occurrence of `sep`, keeping empty pieces. -/
def splitOnChar (sep : Char) : List Char → List (List Char)
  | [] => [[]]
  | c :: cs =>
    if c = sep then [] :: splitOnChar sep cs
    else
      match splitOnChar sep cs with
      | [] => [[c]]
      | h :: t => (c :: h) :: t

/-- Python `token.split('-')[0]`: the stage key with its `-suffix`
disambiguator stripped (cli.py line 419 and the same idiom in each handler). -/
def pyBase (token : String) : String :=
  String.mk ((splitOnChar '-' token.toList).headD [])

/-- Python `str.upper()` (ASCII; stage keys are ASCII). -/
def pyUpper (s : String) : String :=
  String.mk (s.toList.map Char.toUpper)

/-- Python `c in s` for a one-character needle. -/
def strContainsChar (s : String) (c : Char) : Bool := charMem c s.toList

/-- Python `int()` on a run of decimal digits. -/
def natOfDigits (ds : List Char) : Nat :=
  ds.foldl (fun n c => n * 10 + (c.toNat - 48)) 0

/-- Accumulating scanner behind `numRuns`: `acc` holds the digits of the
current run in reverse order. -/
def numRunsAux : List Char → List Char → List (List Char)
  | [], acc => if acc = [] then [] else [acc.reverse]
  | c :: cs, acc =>
    if c.isDigit then numRunsAux cs (c :: acc)
    else if acc = [] then numRunsAux cs []
    else acc.reverse :: numRunsAux cs []

/-- Python `re.findall('\d+', s)`: the maximal runs of decimal digits of `s`,
in order (cli.py line 316). -/
def numRuns (l : List Char) : List (List Char) := numRunsAux l []

/-- NumPy array values: `np.generic` scalars and arbitrarily nested
`np.ndarray` data, as they matter to `_Task.extract_results`. -/
inductive NpArr where
  | scalar (n : Int)
  | arr (xs : List NpArr)

/-- Python values as they flow through the translator: configuration scalars,
mappings (`dict`), library objects with attributes (`obj`), NumPy array-like
values, and zero-argument callables (modelled by the value they return).
A raised `AttributeError` from `setattr` on a non-object is not modelled:
`pysetattr` on a non-`obj` value leaves the value unchanged, a case no stage
of a well-formed document reaches. -/
inductive PyVal where
  | none
  | bool (b : Bool)
  | int (n : Int)
  | str (s : String)
  | list (xs : List PyVal)
  | dict (entries : List (String × PyVal))
  | obj (attrs : List (String × PyVal))
  | ndarray (a : NpArr)
  | callable (ret : PyVal)

/-- First binding of a key in an attribute / dict association list. -/
def getIn : List (String × PyVal) → String → Option PyVal
  | [], _ => Option.none
  | (k, v) :: rest, t => if k = t then some v else getIn rest t

/-- Rebind a key in an association list: replace the first binding when the
key is present, append a new binding otherwise (Python attribute/dict
assignment). -/
def setIn : List (String × PyVal) → String → PyVal → List (String × PyVal)
  | [], t, v => [(t, v)]
  | (k, w) :: rest, t, v =>
    if k = t then (k, v) :: rest else (k, w) :: setIn rest t v

/-- The attribute binding of `t` on `ctx`, when `ctx` is an object that has
one. -/
def attrLookup (ctx : PyVal) (t : String) : Option PyVal :=
  match ctx with
  | PyVal.obj attrs => getIn attrs t
  | _ => Option.none

/-- Python `getattr(ctx, t, None)` (cli.py line 117): the attribute when
present, `None` otherwise. -/
def pygetattr (ctx : PyVal) (t : String) : PyVal :=
  (attrLookup ctx t).getD PyVal.none

/-- Python `setattr(ctx, t, v)` on the object model; on a non-object value
the model leaves the value unchanged (see `PyVal`). -/
def pysetattr (ctx : PyVal) (t : String) (v : PyVal) : PyVal :=
  match ctx with
  | PyVal.obj attrs => PyVal.obj (setIn attrs t v)
  | c => c

/-- Whether the value is Python `None`. -/
def PyVal.isNone : PyVal → Bool
  | PyVal.none => true
  | _ => false

/-- Whether the value is a plain mapping (`isinstance(·, dict)`). -/
def PyVal.isDict : PyVal → Bool
  | PyVal.dict _ => true
  | _ => false

/-- Whether the value is an attribute-carrying object. -/
def PyVal.isObj : PyVal → Bool
  | PyVal.obj _ => true
  | _ => false

mutual

/-- The attribute applier `_update_attributes(ctx, config)` (cli.py lines
106-124).  A non-dict `config` is returned untouched (line 107); otherwise
the body's entries are applied in order by `updateList`. -/
def updateAttributes : PyVal → PyVal → PyVal
  | ctx, PyVal.dict m => updateList ctx m
  | ctx, _ => ctx
termination_by _ c => sizeOf c
decreasing_by all_goals (simp_wf; try omega)

/-- The `for token, val in config.items()` loop of `_update_attributes`
(cli.py lines 112-123): each entry applied in order by `updEntry`. -/
def updateList : PyVal → List (String × PyVal) → PyVal
  | ctx, [] => ctx
  | ctx, (t, v) :: rest => updateList (updEntry ctx t v) rest
termination_by _ l => sizeOf l
decreasing_by all_goals (simp_wf; try omega)

/-- One loop iteration of `_update_attributes` (cli.py lines 113-123): a
reserved key is skipped; a mapping value is assigned wholesale when
`getattr(ctx, token, None)` is `None` or a plain mapping, and otherwise
updates the existing attribute recursively; a non-mapping value is assigned
directly.  The Python recursion mutates the attribute in place; the model
re-binds the attribute to the recursively updated value, which is
observationally the same. -/
def updEntry : PyVal → String → PyVal → PyVal
  | ctx, t, PyVal.dict m =>
    if keyMem t _PHONY then ctx
    else
      let attr := pygetattr ctx t
      if attr.isNone || attr.isDict then pysetattr ctx t (PyVal.dict m)
      else pysetattr ctx t (updateAttributes attr (PyVal.dict m))
  | ctx, t, v =>
    if keyMem t _PHONY then ctx else pysetattr ctx t v
termination_by _ _ v => sizeOf v + 1
decreasing_by all_goals (simp_wf; try omega)

end

/-- The per-key policy of spec section 4.3, written from the spec's words:
skip the three reserved keys; for a mapping value, recurse only when the
context already exposes a sub-object at that attribute which is not itself a
plain mapping, otherwise (absent, `None`, or plain mapping) set wholesale;
set non-mapping values directly. -/
def specApplyC4 (ctx : PyVal) (kv : String × PyVal) : PyVal :=
  if keyMem kv.1 _PHONY then ctx
  else if kv.2.isDict then
    if (pygetattr ctx kv.1).isNone || (pygetattr ctx kv.1).isDict then
      pysetattr ctx kv.1 kv.2
    else
      pysetattr ctx kv.1 (updateAttributes (pygetattr ctx kv.1) kv.2)
  else pysetattr ctx kv.1 kv.2

/-- Keys of an association list. -/
def keysOfL (m : List (String × PyVal)) : List String := m.map Prod.fst

/-- Pairwise-distinct strings. -/
def nodupKeys : List String → Bool
  | [] => true
  | t :: ts => !keyMem t ts && nodupKeys ts

mutual

/-- Well-formedness of a configuration value as produced by a YAML/JSON/TOML
parse: every mapping in it has pairwise distinct keys (Python dicts cannot
repeat keys). -/
def wfConfig : PyVal → Bool
  | PyVal.dict m => wfList m
  | _ => true
termination_by c => sizeOf c
decreasing_by all_goals (simp_wf; try omega)

/-- Well-formedness of a mapping's entry list: pairwise distinct keys,
recursively well-formed values. -/
def wfList : List (String × PyVal) → Bool
  | [] => true
  | (t, v) :: rest => !keyMem t (keysOfL rest) && wfConfig v && wfList rest
termination_by l => sizeOf l
decreasing_by all_goals (simp_wf; try omega)

end

/-! ### The mean-field stage handler `_Task.handle_scf` (cli.py lines 261-296)

The claims about `handle_scf` concern the order in which it touches the
context, so the handler is embedded as the trace of calls it performs. -/

/-- One observable step of `handle_scf` on the mean-field context: a plain
attribute assignment, a decorator-style modifier call taking its submapping
as arguments, or the final `.run()`. -/
inductive SEvent where
  | attrE (k : String) (v : PyVal)
  | modifierE (name : String) (args : PyVal)
  | runE

/-- The fixed modifier name list of `handle_scf` (cli.py line 265), in its
declared order. -/
def mf_methods : List String :=
  ["density_fit", "mix_density_fit", "x2c", "sfx2c", "x2c1e", "sfx2c1e", "newton"]

/-- `config_pass1` of `handle_scf` (cli.py line 266): the stage-body entries
whose key is not a modifier name, in document order. -/
def scfPass1 (config : List (String × PyVal)) : List (String × PyVal) :=
  config.filter (fun kv => !keyMem kv.1 mf_methods)

/-- `config_pass2` of `handle_scf` (cli.py line 267): for each modifier name
in the declared `mf_methods` order, its submapping when present in the body. -/
def scfPass2 (config : List (String × PyVal)) : List (String × PyVal) :=
  mf_methods.filterMap (fun k => (getIn config k).map (fun v => (k, v)))

/-- The top-level assignment trace of `_update_attributes(ctx, m)`: one
assignment per non-reserved key, in order (nested mapping values are applied
within the same assignment step). -/
def updateTrace (m : List (String × PyVal)) : List SEvent :=
  (m.filter (fun kv => !keyMem kv.1 _PHONY)).map (fun kv => SEvent.attrE kv.1 kv.2)

/-- The trace of the execution branch of `handle_scf` (cli.py lines 288-292):
`_update_attributes(ctx, config_pass1)`, then one modifier call per
`config_pass2` entry, then `ctx.run()`. -/
def handle_scf_events (config : List (String × PyVal)) : List SEvent :=
  updateTrace (scfPass1 config)
    ++ (scfPass2 config).map (fun kv => SEvent.modifierE kv.1 kv.2)
    ++ [SEvent.runE]

/-- The mean-field stage trace as spec section 4.2 words it: every plain
(non-modifier, non-reserved) attribute assignment first, in document order;
then one call per modifier present in the body, in the fixed declared order
of the modifier list; then the computation trigger. -/
def scfSpecTrace (config : List (String × PyVal)) : List SEvent :=
  (config.filter (fun kv => !keyMem kv.1 mf_methods && !keyMem kv.1 _PHONY)).map
      (fun kv => SEvent.attrE kv.1 kv.2)
    ++ (mf_methods.filter (fun k => (getIn config k).isSome)).map
      (fun k => SEvent.modifierE k ((getIn config k).getD PyVal.none))
    ++ [SEvent.runE]

/-! ### The stage classifier of `_Task.run` (cli.py lines 402-431) -/

/-- The structural handler kinds of the `handlers` table in `_Task.run`
(cli.py lines 405-415). -/
inductive HKind where
  | versionH
  | importH
  | moleCellH
  | solventH
  | gradientsH
  | geomoptH
deriving DecidableEq

/-- How `_Task.run` dispatches a stage key: a structural handler, the
mean-field handler, the multi-configuration handler, the free-form
expression handler, or the generic post-method handler. -/
inductive StageKind where
  | structural (h : HKind)
  | scfStage
  | mcscfStage
  | customStage
  | postscfStage
deriving DecidableEq

/-- The `handlers` table of `_Task.run` (cli.py lines 405-415), with each key
mapped to the structural handler it names. -/
def handlersTable : List (String × HKind) :=
  [("VERSION", HKind.versionH), ("IMPORT", HKind.importH),
   ("MOLE", HKind.moleCellH), ("CELL", HKind.moleCellH),
   ("DDCOSMO", HKind.solventH), ("DDPCM", HKind.solventH),
   ("SOLVENT", HKind.solventH),
   ("GRADIENTS", HKind.gradientsH), ("GEOMOPT", HKind.geomoptH)]

/-- The key set of the `handlers` table. -/
def handlerKeys : List String := handlersTable.map Prod.fst

/-- First binding of a key in the handler table (Python dict lookup). -/
def lookupH : List (String × HKind) → String → Option HKind
  | [], _ => Option.none
  | (k, h) :: rest, t => if k = t then some h else lookupH rest t

/-- The stage classification of `_Task.run` (cli.py lines 418-429),
translated clause by clause: `klass = token.split('-')[0]`; membership in the
handler table is tested on `klass.upper()` while the handler itself is looked
up under the raw `klass` (lines 420-421), so a key matching the table only
after uppercasing raises `KeyError`; then case-sensitive membership in
`_SCF_METHODS`; then `'CAS' == klass[:3].upper()`; then `'.' in klass`; else
the generic post-method handler. -/
def classify (token : String) : Except String StageKind :=
  let klass := pyBase token
  if keyMem (pyUpper klass) handlerKeys then
    match lookupH handlersTable klass with
    | some h => Except.ok (StageKind.structural h)
    | Option.none => Except.error ("KeyError: " ++ klass)
  else if keyMem klass _SCF_METHODS then Except.ok StageKind.scfStage
  else if pyUpper (String.mk (klass.toList.take 3)) = "CAS" then
    Except.ok StageKind.mcscfStage
  else if strContainsChar klass '.' then Except.ok StageKind.customStage
  else Except.ok StageKind.postscfStage

/-- The classifier exactly as claim C1 words it: after stripping the
`-suffix`, (1) exact match against the structural table, then (2) membership
in the mean-field method set, then (3) a case-insensitive `CAS` head, then
(4) a `.` in the key, then (5) the generic post-method handler.  It never
fails. -/
def classifySpecC1 (token : String) : StageKind :=
  let klass := pyBase token
  if keyMem klass handlerKeys then
    StageKind.structural ((lookupH handlersTable klass).getD HKind.versionH)
  else if keyMem klass _SCF_METHODS then StageKind.scfStage
  else if pyUpper (String.mk (klass.toList.take 3)) = "CAS" then
    StageKind.mcscfStage
  else if strContainsChar klass '.' then StageKind.customStage
  else StageKind.postscfStage

/-- The classifier as the amended claim words it: if the uppercased base key
is in the structural table, the handler is looked up under the raw base key —
dispatching to the structural handler when the base key is exactly a table
entry and failing with `KeyError` when it matches the table only after
uppercasing; the remaining precedence steps are unchanged. -/
def classifyAmended (token : String) : Except String StageKind :=
  let klass := pyBase token
  if keyMem (pyUpper klass) handlerKeys then
    if keyMem klass handlerKeys then
      Except.ok (StageKind.structural ((lookupH handlersTable klass).getD HKind.versionH))
    else Except.error ("KeyError: " ++ klass)
  else if keyMem klass _SCF_METHODS then Except.ok StageKind.scfStage
  else if pyUpper (String.mk (klass.toList.take 3)) = "CAS" then
    Except.ok StageKind.mcscfStage
  else if strContainsChar klass '.' then Except.ok StageKind.customStage
  else Except.ok StageKind.postscfStage

/-! ### The multi-configuration key parse of `_Task.handle_mcscf`
(cli.py lines 312-335) -/

/-- The parse-and-argument step of `handle_mcscf` on character lists:
`mc_method, ne_no = klass.split('(')` (exactly two pieces, else a
`ValueError`, modelled as `Option.none`), `ne, no = re.findall('\d+', klass)`
(exactly two digit runs, else a `ValueError`), and the constructor call
`getattr(ctx, mc_method)(int(no), int(ne))` (cli.py line 329): the result
triple is the method name, the first constructor argument `int(no)`, and the
second constructor argument `int(ne)`. -/
def handle_mcscf_argsL (klass : List Char) : Option (List Char × Nat × Nat) :=
  match splitOnChar '(' klass with
  | [mc_method, _] =>
    match numRuns klass with
    | [ne, no] => some (mc_method, natOfDigits no, natOfDigits ne)
    | _ => Option.none
  | _ => Option.none

/-- `handle_mcscf_argsL` on strings. -/
def handle_mcscf_args (klass : String) : Option (String × Nat × Nat) :=
  (handle_mcscf_argsL klass.toList).map (fun r => (String.mk r.1, r.2.1, r.2.2))

/-- The same step as claim C2 words it: the two counts (p, q) of the
parenthesized pair are number of orbitals and number of electrons in that
order, and the constructor receives the orbital count `p` first and the
electron count `q` second. -/
def mcscfClaimArgs (klass : String) : Option (String × Nat × Nat) :=
  match splitOnChar '(' klass.toList with
  | [mc_method, _] =>
    match numRuns klass.toList with
    | [p, q] => some (String.mk mc_method, natOfDigits p, natOfDigits q)
    | _ => Option.none
  | _ => Option.none

/-! ### The result extractor `_Task.extract_results` (cli.py lines 178-209) -/

/-- Python `np.ndarray.tolist()` / `np.generic.tolist()`: plain nested lists
of plain numbers. -/
def NpArr.tolist : NpArr → PyVal
  | NpArr.scalar n => PyVal.int n
  | NpArr.arr xs => PyVal.list (tolistL xs)
where
  /-- `tolist` element by element. -/
  tolistL : List NpArr → List PyVal
  | [] => []
  | x :: xs => NpArr.tolist x :: tolistL xs

/-- Python `getattr(cur_ctx, key)` with no default, as the path resolution
of `extract_results` uses it (cli.py line 200): the attribute when present,
a fatal `AttributeError` otherwise — unlike the three-argument defaulting
`getattr(ctx, token, None)` of `_update_attributes` (line 117). -/
def getattrE (ctx : PyVal) (k : String) : Except String PyVal :=
  match attrLookup ctx k with
  | some v => Except.ok v
  | Option.none => Except.error ("AttributeError: " ++ k)

/-- One path expression resolved segment by segment against the stage's
context (cli.py lines 194-200): the token is split on `.`; a segment
containing `[` or `(` is evaluated as a raw expression — left abstract as
the fallible parameter `ex`, the trusted-input escape hatch of spec section
4.4 — and any other segment is the raising attribute lookup `getattrE`.
The first failing segment aborts resolution. -/
def resolveTokenE (ex : PyVal → String → Except String PyVal) (ctx : PyVal)
    (token : String) : Except String PyVal :=
  go ctx ((splitOnChar '.' token.toList).map String.mk)
where
  /-- The `for key in token.split('.')` loop of cli.py lines 195-200. -/
  go : PyVal → List String → Except String PyVal
  | cur, [] => Except.ok cur
  | cur, key :: rest =>
    match
      (if strContainsChar key '[' || strContainsChar key '(' then ex cur key
       else getattrE cur key) with
    | Except.error e => Except.error e
    | Except.ok nxt => go nxt rest

/-- The post-resolution step of `extract_results` (cli.py lines 201-208): a
callable final value is invoked with no arguments, then a NumPy array-like
value is converted by `tolist()`, and anything else passes through. -/
def postProcess (v : PyVal) : PyVal :=
  let v := match v with
    | PyVal.callable ret => ret
    | w => w
  match v with
  | PyVal.ndarray a => a.tolist
  | w => w

/-- The request-token elements of a results-request list: each element must
be a string — a non-string element fails at `token.split('.')` (cli.py line
195) with an `AttributeError`. -/
def strTokensE : List PyVal → Except String (List String)
  | [] => Except.ok []
  | PyVal.str s :: rest => (strTokensE rest).map (fun ts => s :: ts)
  | _ :: _ => Except.error "AttributeError: results token has no attribute split"

/-- The tokens the `for token in tokens` loop of `extract_results` iterates
(cli.py lines 183-195): a single string is normalized to a one-element list
(lines 184-185); a list yields its elements, each of which must be a string;
iterating a mapping yields its keys; any other request value is not
iterable and raises `TypeError`. -/
def requestTokens : PyVal → Except String (List String)
  | PyVal.str s => Except.ok [s]
  | PyVal.list xs => strTokensE xs
  | PyVal.dict dm => Except.ok (keysOfL dm)
  | _ => Except.error "TypeError: results request is not iterable"

/-- The resolution loop of `extract_results` (cli.py lines 192-208): each
token resolved against the stage's context and post-processed, stored under
the full original token string in request order; the first failure aborts
the loop (and with it the run). -/
def extractLoop (ex : PyVal → String → Except String PyVal) (ctx : PyVal) :
    List String → List (String × PyVal) → Except String (List (String × PyVal))
  | [], acc => Except.ok acc
  | tk :: rest, acc =>
    match resolveTokenE ex ctx tk with
    | Except.error e => Except.error e
    | Except.ok v => extractLoop ex ctx rest (setIn acc tk (postProcess v))

/-- The execution branch of `_Task.extract_results` (cli.py lines 178-209)
on one stage body: a `None` body or a body without a `results` key is
untouched; otherwise the request is normalized by `requestTokens`, resolved
token by token by `extractLoop`, and the resolved mapping replaces the
body's `results` value in place; any failure (non-iterable request,
non-string token, unresolvable path segment) propagates as a fatal error.
The handlers that call `extract_results` only ever pass a mapping or `None`
as the body; other body shapes are returned unchanged. -/
def extract_results (ex : PyVal → String → Except String PyVal)
    (body : PyVal) (ctx : PyVal) : Except String PyVal :=
  match body with
  | PyVal.dict m =>
    match getIn m "results" with
    | Option.none => Except.ok (PyVal.dict m)
    | some tv =>
      match requestTokens tv with
      | Except.error e => Except.error e
      | Except.ok tokens =>
        match extractLoop ex ctx tokens [] with
        | Except.error e => Except.error e
        | Except.ok results =>
          Except.ok (PyVal.dict (setIn m "results" (PyVal.dict results)))
  | b => Except.ok b

/-! ### The stage pipeline: contexts, handlers and `_Task.run`

The claims C5, C7 and C9 are about which object kind the running context
holds, which errors abort the run, and how the context is threaded between
stages.  Library objects (molecules, mean-field objects, gradients,
optimizers) are external to this repository; their constructors and `run`
methods are modelled from the spec where noted. -/

/-- The running context objects threaded through stages: a molecule/cell
descriptor tagged with a geometry identifier, a mean-field object, a
solvent-decorated mean-field object, a multi-configuration object (with the
two constructor counts in argument order), a gradients object, a geometry
optimizer, and a generic post-method object, each carrying its attribute
state. -/
inductive PObj where
  | mole (geom : Nat) (attrs : List (String × PyVal))
  | scf (mol : PObj) (attrs : List (String × PyVal)) (ran : Bool)
  | solvated (model : String) (base : PObj) (attrs : List (String × PyVal)) (ran : Bool)
  | mc (method : String) (norb : Nat) (nelec : Nat) (base : PObj)
      (attrs : List (String × PyVal)) (ran : Bool)
  | gradObj (base : PObj) (attrs : List (String × PyVal)) (ran : Bool)
  | optim (base : PObj) (attrs : List (String × PyVal)) (ran : Bool)
  | generic (name : String) (base : PObj) (attrs : List (String × PyVal)) (ran : Bool)

/-- Whether the context is a molecule/cell descriptor
(`isinstance(ctx, pyscf.gto.Mole)`). -/
def isMoleP : PObj → Bool
  | PObj.mole _ _ => true
  | _ => false

/-- Whether the context is a geometry optimizer object. -/
def isOptimP : PObj → Bool
  | PObj.optim _ _ _ => true
  | _ => false

/-- Whether the context is a gradients object
(`isinstance(ctx, pyscf.grad.rhf.GradientsBasics)`, cli.py line 357). -/
def isGradP : PObj → Bool
  | PObj.gradObj _ _ _ => true
  | _ => false

/-- Whether the context is a mean-field object
(`isinstance(ctx, pyscf.scf.hf.SCF)`, cli.py line 307).  Modelled from the
spec: a solvent-decorated mean-field object is still a mean-field object. -/
def isSCFP : PObj → Bool
  | PObj.scf _ _ _ => true
  | PObj.solvated _ _ _ _ => true
  | _ => false

/-- The geometry tag of the molecule/cell descriptor underlying a context. -/
def baseGeom : PObj → Nat
  | PObj.mole g _ => g
  | PObj.scf m _ _ => baseGeom m
  | PObj.solvated _ b _ _ => baseGeom b
  | PObj.mc _ _ _ b _ _ => baseGeom b
  | PObj.gradObj b _ _ => baseGeom b
  | PObj.optim b _ _ => baseGeom b
  | PObj.generic _ b _ _ => baseGeom b

/-- Attribute application lifted to a context object's attribute list, via
`updateAttributes` on the object model. -/
def objUpd (attrs : List (String × PyVal)) (body : PyVal) : List (String × PyVal) :=
  match updateAttributes (PyVal.obj attrs) body with
  | PyVal.obj a => a
  | _ => attrs

/-- `_update_attributes` applied to a pipeline context: the object's
attribute state is updated, its structural identity is untouched. -/
def pobjUpdate (p : PObj) (body : PyVal) : PObj :=
  match p with
  | PObj.mole g a => PObj.mole g (objUpd a body)
  | PObj.scf m a r => PObj.scf m (objUpd a body) r
  | PObj.solvated s b a r => PObj.solvated s b (objUpd a body) r
  | PObj.mc mth no ne b a r => PObj.mc mth no ne b (objUpd a body) r
  | PObj.gradObj b a r => PObj.gradObj b (objUpd a body) r
  | PObj.optim b a r => PObj.optim b (objUpd a body) r
  | PObj.generic n b a r => PObj.generic n b (objUpd a body) r

/-- The synchronous `.run()` call on a context object.  Modelled from the
spec: execution is synchronous and blocking and returns the same object,
marked as executed. -/
def runP : PObj → PObj
  | PObj.mole g a => PObj.mole g a
  | PObj.scf m a _ => PObj.scf m a true
  | PObj.solvated s b a _ => PObj.solvated s b a true
  | PObj.mc mth no ne b a _ => PObj.mc mth no ne b a true
  | PObj.gradObj b a _ => PObj.gradObj b a true
  | PObj.optim b a _ => PObj.optim b a true
  | PObj.generic n b a _ => PObj.generic n b a true

/-- The `.mol` attribute of a context object (cli.py line 365).  Modelled
from the spec: an executed optimizer's `mol` is the molecule/cell descriptor
with the newly optimized geometry — a fresh geometry tag, distinct from the
one the optimization started from — while any other object's `mol` is its
underlying descriptor unchanged. -/
def molP : PObj → PObj
  | PObj.optim b _ ran =>
    if ran then PObj.mole (baseGeom b + 1) [] else PObj.mole (baseGeom b) []
  | p => PObj.mole (baseGeom p) []

/-- The attribute entries of a stage body, for handlers that construct a
fresh object from the body (`pyscf.M(**config)` and `_basic_handler`). -/
def attrsOfBody : PyVal → List (String × PyVal)
  | PyVal.dict m => m
  | _ => []

/-- `_Task.handle_geomopt`, execution branch (cli.py lines 346-368): a
gradients context is wrapped in an optimizer directly, any other context
first has its `Gradients()` object constructed (modelled from the spec:
every context reaching this stage is gradient-capable); attributes are
applied, `.run()` executes the optimization, and the handler returns the
optimizer's `mol` — the descriptor of the new geometry — as the next
context.  Result extraction is modelled separately by `extract_results`. -/
def handle_geomopt (ctx : PObj) (body : PyVal) : PObj :=
  let g0 :=
    if isGradP ctx then PObj.optim ctx [] false
    else PObj.optim (PObj.gradObj ctx [] false) [] false
  let g1 := pobjUpdate g0 body
  let g2 := runP g1
  molP g2

/-- The permitted solvent model names (cli.py line 300). -/
def solventPermitted : List String := ["ddCOSMO", "ddPCM"]

/-- `_Task.handle_solvent_model`, execution branch (cli.py lines 298-310):
fatal `RuntimeError` when the base key is not a permitted solvent-model name
(checked first), fatal `RuntimeError` when the current context is not a
mean-field object; otherwise `_basic_handler` constructs the solvent-model
object from the context, applies attributes and runs it (the solvated
object, modelled from the spec as still mean-field). -/
def handle_solvent_model (token : String) (octx : Option PObj) (body : PyVal) :
    Except String PObj :=
  let klass := pyBase token
  if keyMem klass solventPermitted then
    match octx with
    | some ctx =>
      if isSCFP ctx then
        Except.ok (PObj.solvated klass ctx (attrsOfBody body) true)
      else Except.error "Solvent model can be applied to SCF object only"
    | Option.none => Except.error "Solvent model can be applied to SCF object only"
  else Except.error ("Invalid solvent model " ++ klass)

/-- `_Task.handle_mole_cell`, execution branch (cli.py lines 233-259): with
no context yet, a fresh molecule/cell descriptor is constructed from the
body; with an existing context, `ctx.build(**config)` rebuilds it in place
and the same descriptor is returned. -/
def handle_mole_cell (octx : Option PObj) (body : PyVal) : PObj :=
  match octx with
  | Option.none => PObj.mole 0 (attrsOfBody body)
  | some c => pobjUpdate c body

/-- The molecule/cell descriptor a mean-field stage builds on (cli.py lines
281-286): the context itself when it is a descriptor, else the context's
underlying descriptor (`ctx.cell` / `ctx.mol`). -/
def molSource : PObj → PObj
  | PObj.mole g a => PObj.mole g a
  | p => PObj.mole (baseGeom p) []

/-- `_Task.handle_scf` restricted to what the pipeline threads onward
(cli.py lines 280-296): a mean-field object over the context's descriptor,
with attributes applied and executed.  The pass structure of the handler is
embedded separately as `handle_scf_events`. -/
def handle_scf_obj (octx : Option PObj) (body : PyVal) : Except String PObj :=
  match octx with
  | Option.none => Except.error "AttributeError: NoneType object has no attribute mol"
  | some c => Except.ok (PObj.scf (molSource c) (attrsOfBody body) true)

/-- The back-reference step shared by `handle_mcscf` and `handle_postscf`
(cli.py lines 327-328 and 342-343): a molecule or mean-field context is used
directly, any other context falls back to its `._scf` attribute — present on
multi-configuration and post-method objects (modelled from the spec's
back-reference), an `AttributeError` otherwise. -/
def scfBackref : PObj → Except String PObj
  | PObj.mole g a => Except.ok (PObj.mole g a)
  | PObj.scf m a r => Except.ok (PObj.scf m a r)
  | PObj.solvated s b a r => Except.ok (PObj.solvated s b a r)
  | PObj.mc _ _ _ b _ _ => Except.ok b
  | PObj.generic _ b _ _ => Except.ok b
  | _ => Except.error "AttributeError: object has no attribute _scf"

/-- `_Task.handle_mcscf`, execution branch (cli.py lines 312-335): the key
parse and constructor-argument order of `handle_mcscf_argsL` (a parse
failure is the `ValueError` of the unpacking assignments), the back-reference
step on the context, then the multi-configuration object is constructed with
the parsed counts in the order of cli.py line 329, attributes applied, and
run. -/
def handle_mcscf_obj (token : String) (octx : Option PObj) (body : PyVal) :
    Except String PObj :=
  let klass := pyBase token
  match handle_mcscf_args klass with
  | Option.none => Except.error "ValueError: multi-configuration key parse"
  | some (method, a1, a2) =>
    match octx with
    | Option.none => Except.error "AttributeError: NoneType object has no attribute _scf"
    | some c =>
      match scfBackref c with
      | Except.error e => Except.error e
      | Except.ok b => Except.ok (PObj.mc method a1 a2 b (attrsOfBody body) true)

/-- `_Task.handle_postscf` (cli.py lines 337-344): the back-reference step,
then `_basic_handler` constructs the object named by the base key, applies
attributes and runs it. -/
def handle_postscf_obj (token : String) (octx : Option PObj) (body : PyVal) :
    Except String PObj :=
  match octx with
  | Option.none => Except.error "AttributeError: NoneType object has no attribute _scf"
  | some c =>
    match scfBackref c with
    | Except.error e => Except.error e
    | Except.ok b => Except.ok (PObj.generic (pyBase token) b (attrsOfBody body) true)

/-- `_Task.handle_gradients` (cli.py lines 370-371): `_basic_handler` on the
current context (modelled from the spec: the context is gradient-capable and
the constructed object is a gradients object). -/
def handle_gradients (octx : Option PObj) (body : PyVal) : Except String PObj :=
  match octx with
  | Option.none => Except.error "AttributeError: NoneType object has no attribute Gradients"
  | some c => Except.ok (PObj.gradObj c (attrsOfBody body) true)

/-- One stage dispatch of `_Task.run` (cli.py lines 417-429) in execution
mode.  `VERSION` and `IMPORT` stages raise `TypeError` at the call site:
`handlers[klass](token, ctx)` passes two arguments to `handle_version` /
`handle_import`, which accept only `entry_name` (cli.py lines 151, 157, 421).
A free-form expression stage raises `TypeError` at cli.py line 376, which
iterates the method object `config.items` instead of calling it. -/
def dispatchStage (token : String) (body : PyVal) (octx : Option PObj) :
    Except String (Option PObj) :=
  match classify token with
  | Except.error e => Except.error e
  | Except.ok k =>
    match k with
    | StageKind.structural HKind.versionH =>
      Except.error "TypeError: handle_version() takes 2 positional arguments but 3 were given"
    | StageKind.structural HKind.importH =>
      Except.error "TypeError: handle_import() takes 2 positional arguments but 3 were given"
    | StageKind.structural HKind.moleCellH =>
      Except.ok (some (handle_mole_cell octx body))
    | StageKind.structural HKind.solventH =>
      (handle_solvent_model token octx body).map some
    | StageKind.structural HKind.gradientsH =>
      (handle_gradients octx body).map some
    | StageKind.structural HKind.geomoptH =>
      match octx with
      | some c => Except.ok (some (handle_geomopt c body))
      | Option.none => Except.error "AttributeError: NoneType object has no attribute Gradients"
    | StageKind.scfStage => (handle_scf_obj octx body).map some
    | StageKind.mcscfStage => (handle_mcscf_obj token octx body).map some
    | StageKind.customStage =>
      Except.error "TypeError: for-loop over the method object config.items"
    | StageKind.postscfStage => (handle_postscf_obj token octx body).map some

/-- The stage loop of `_Task.run` (cli.py lines 417-431): stages in document
order, each handler's result becoming the next context; an exception aborts
the run immediately — no stage after it executes, nothing is retried. -/
def runStages : Option PObj → List (String × PyVal) → Except String (Option PObj)
  | octx, [] => Except.ok octx
  | octx, (token, body) :: rest =>
    match dispatchStage token body octx with
    | Except.error e => Except.error e
    | Except.ok octx' => runStages octx' rest


/-! ## Supporting lemmas for the attribute applier -/

theorem update_dict (ctx : PyVal) (m : List (String × PyVal)) :
    updateAttributes ctx (PyVal.dict m) = updateList ctx m := by
  simp [updateAttributes]

theorem update_nondict (ctx c : PyVal) (h : c.isDict = false) :
    updateAttributes ctx c = ctx := by
  cases c <;> simp_all [PyVal.isDict, updateAttributes]

theorem updateList_nil (ctx : PyVal) : updateList ctx [] = ctx := by
  simp [updateList]

theorem updateList_cons (ctx : PyVal) (t : String) (v : PyVal)
    (rest : List (String × PyVal)) :
    updateList ctx ((t, v) :: rest) = updateList (updEntry ctx t v) rest := by
  simp [updateList]

theorem getIn_setIn_self (a : List (String × PyVal)) (k : String) (v : PyVal) :
    getIn (setIn a k v) k = some v := by
  induction a with
  | nil => simp [setIn, getIn]
  | cons hd tl ih =>
    obtain ⟨k', w⟩ := hd
    by_cases h : k' = k <;> simp [setIn, getIn, h, ih]

theorem getIn_setIn_other (a : List (String × PyVal)) (k k' : String) (v : PyVal)
    (h : k ≠ k') : getIn (setIn a k v) k' = getIn a k' := by
  induction a with
  | nil => simp [setIn, getIn, h]
  | cons hd tl ih =>
    obtain ⟨k0, w⟩ := hd
    by_cases h0 : k0 = k
    · subst h0
      simp [setIn, getIn, h]
    · simp [setIn, getIn, h0, ih]

theorem setIn_getIn_id (a : List (String × PyVal)) (k : String) (v : PyVal)
    (h : getIn a k = some v) : setIn a k v = a := by
  induction a with
  | nil => simp [getIn] at h
  | cons hd tl ih =>
    obtain ⟨k0, w⟩ := hd
    by_cases h0 : k0 = k
    · subst h0
      simp [getIn] at h
      simp [setIn, h]
    · simp [getIn, h0] at h
      simp [setIn, h0, ih h]

theorem attrLookup_pysetattr_self (a : List (String × PyVal)) (k : String) (v : PyVal) :
    attrLookup (pysetattr (PyVal.obj a) k v) k = some v := by
  simp [pysetattr, attrLookup, getIn_setIn_self]

theorem attrLookup_pysetattr_other (ctx : PyVal) (k k' : String) (v : PyVal)
    (h : k ≠ k') : attrLookup (pysetattr ctx k v) k' = attrLookup ctx k' := by
  cases ctx <;> simp [pysetattr, attrLookup, getIn_setIn_other _ _ _ _ h]

theorem pysetattr_attrLookup_id (ctx : PyVal) (k : String) (v : PyVal)
    (h : attrLookup ctx k = some v) : pysetattr ctx k v = ctx := by
  cases ctx <;> simp_all [attrLookup, pysetattr]
  exact setIn_getIn_id _ _ _ h

theorem pysetattr_isObj (ctx : PyVal) (k : String) (v : PyVal) :
    (pysetattr ctx k v).isObj = ctx.isObj := by
  cases ctx <;> simp [pysetattr, PyVal.isObj]

theorem updEntry_phony (ctx : PyVal) (t : String) (v : PyVal)
    (h : keyMem t _PHONY = true) : updEntry ctx t v = ctx := by
  cases v <;> simp [updEntry, h]

theorem updEntry_isObj (ctx : PyVal) (t : String) (v : PyVal) :
    (updEntry ctx t v).isObj = ctx.isObj := by
  cases v <;> simp only [updEntry] <;> split <;>
    first
      | rfl
      | (split <;> exact pysetattr_isObj ..)
      | exact pysetattr_isObj ..

theorem updateList_isObj (m : List (String × PyVal)) :
    ∀ ctx : PyVal, (updateList ctx m).isObj = ctx.isObj := by
  induction m with
  | nil => intro ctx; simp [updateList_nil]
  | cons hd tl ih =>
    intro ctx
    obtain ⟨t, v⟩ := hd
    rw [updateList_cons, ih, updEntry_isObj]

theorem updEntry_nonobj (ctx : PyVal) (t : String) (v : PyVal)
    (h : ctx.isObj = false) : updEntry ctx t v = ctx := by
  have hset : ∀ k w, pysetattr ctx k w = ctx := by
    intro k w
    cases ctx <;> simp_all [PyVal.isObj, pysetattr]
  cases v <;> simp only [updEntry] <;> split <;>
    first
      | rfl
      | (split <;> exact hset ..)
      | exact hset ..

theorem updateList_nonobj (m : List (String × PyVal)) :
    ∀ ctx : PyVal, ctx.isObj = false → updateList ctx m = ctx := by
  induction m with
  | nil => intro ctx _; exact updateList_nil ctx
  | cons hd tl ih =>
    intro ctx h
    obtain ⟨t, v⟩ := hd
    rw [updateList_cons, updEntry_nonobj _ _ _ h]
    exact ih ctx h

theorem update_nonobj_all (ctx c : PyVal) (h : ctx.isObj = false) :
    updateAttributes ctx c = ctx := by
  by_cases hd : c.isDict = true
  · cases c <;> simp [PyVal.isDict] at hd
    rw [update_dict]
    exact updateList_nonobj _ _ h
  · exact update_nondict _ _ (by simpa using hd)

theorem isObj_not_none_dict (x : PyVal) (h : x.isObj = true) :
    x.isNone = false ∧ x.isDict = false := by
  cases x <;> simp_all [PyVal.isObj, PyVal.isNone, PyVal.isDict]

theorem attrLookup_updEntry_other (ctx : PyVal) (t t' : String) (v : PyVal)
    (h : t' ≠ t) : attrLookup (updEntry ctx t' v) t = attrLookup ctx t := by
  cases v <;> simp only [updEntry] <;> split <;>
    first
      | rfl
      | (split <;> exact attrLookup_pysetattr_other _ _ _ _ h)
      | exact attrLookup_pysetattr_other _ _ _ _ h

theorem attrLookup_updateList_not_mem (m : List (String × PyVal)) :
    ∀ ctx : PyVal, ∀ t : String, keyMem t (keysOfL m) = false →
      attrLookup (updateList ctx m) t = attrLookup ctx t := by
  induction m with
  | nil => intro ctx t _; rw [updateList_nil]
  | cons hd tl ih =>
    intro ctx t h
    obtain ⟨t', v⟩ := hd
    simp only [keysOfL, List.map_cons] at h
    rw [keyMem] at h
    by_cases he : t' = t
    · simp [he] at h
    · simp only [if_neg he] at h
      rw [updateList_cons, ih _ _ (by simpa [keysOfL] using h),
        attrLookup_updEntry_other _ _ _ _ he]

theorem wfList_cons_parts (t : String) (v : PyVal) (rest : List (String × PyVal))
    (h : wfList ((t, v) :: rest) = true) :
    keyMem t (keysOfL rest) = false ∧ wfConfig v = true ∧ wfList rest = true := by
  rw [wfList] at h
  simp only [Bool.and_eq_true, Bool.not_eq_true'] at h
  exact ⟨h.1.1, h.1.2, h.2⟩

theorem updEntry_eq_specApply (ctx : PyVal) (t : String) (v : PyVal) :
    updEntry ctx t v = specApplyC4 ctx (t, v) := by
  cases v <;> simp [updEntry, specApplyC4, PyVal.isDict]

theorem updateList_eq_foldl (m : List (String × PyVal)) :
    ∀ ctx : PyVal, updateList ctx m = m.foldl specApplyC4 ctx := by
  induction m with
  | nil => intro ctx; simp [updateList_nil]
  | cons hd tl ih =>
    intro ctx
    obtain ⟨t, v⟩ := hd
    rw [updateList_cons, List.foldl_cons, ih, updEntry_eq_specApply]

theorem updEntry_nondict_eq (ctx : PyVal) (t : String) (v : PyVal)
    (hph : keyMem t _PHONY = false) (hvd : v.isDict = false) :
    updEntry ctx t v = pysetattr ctx t v := by
  cases v <;> simp_all [updEntry, PyVal.isDict]

theorem updEntry_dict_wholesale (ctx : PyVal) (t : String)
    (mm : List (String × PyVal)) (hph : keyMem t _PHONY = false)
    (hbr : ((pygetattr ctx t).isNone || (pygetattr ctx t).isDict) = true) :
    updEntry ctx t (PyVal.dict mm) = pysetattr ctx t (PyVal.dict mm) := by
  simp [updEntry, hph, hbr]

theorem updEntry_dict_recurse (ctx : PyVal) (t : String)
    (mm : List (String × PyVal)) (hph : keyMem t _PHONY = false)
    (hbr : ((pygetattr ctx t).isNone || (pygetattr ctx t).isDict) = false) :
    updEntry ctx t (PyVal.dict mm) =
      pysetattr ctx t (updateAttributes (pygetattr ctx t) (PyVal.dict mm)) := by
  simp [updEntry, hph, hbr]

theorem updateList_idem_aux :
    ∀ n : Nat, ∀ m : List (String × PyVal), sizeOf m ≤ n → wfList m = true →
      ∀ ctx : PyVal, updateList (updateList ctx m) m = updateList ctx m := by
  intro n
  induction n with
  | zero =>
    intro m hm
    cases m <;> simp_all
  | succ n ih =>
    intro m hm hwf ctx
    match m with
    | [] => simp [updateList_nil]
    | (t, v) :: rest =>
      obtain ⟨ht, hv, hr⟩ := wfList_cons_parts _ _ _ hwf
      have hrest_size : sizeOf rest ≤ n := by
        simp only [List.cons.sizeOf_spec, Prod.mk.sizeOf_spec] at hm
        omega
      rw [updateList_cons, updateList_cons]
      have key : updEntry (updateList (updEntry ctx t v) rest) t v =
          updateList (updEntry ctx t v) rest := by
        by_cases hph0 : keyMem t _PHONY = true
        · exact updEntry_phony _ _ _ hph0
        · have hph : keyMem t _PHONY = false := by simpa using hph0
          by_cases hobj : ctx.isObj = true
          · -- the context is an object: the second pass re-reads exactly the
            -- value the first pass bound at `t`, and re-binding it is the identity
            obtain ⟨a, rfl⟩ : ∃ a, ctx = PyVal.obj a := by
              cases ctx <;> simp_all [PyVal.isObj]
            by_cases hvd : v.isDict = true
            · obtain ⟨mm, rfl⟩ : ∃ mm, v = PyVal.dict mm := by
                cases v <;> simp_all [PyVal.isDict]
              by_cases hbr : ((pygetattr (PyVal.obj a) t).isNone
                  || (pygetattr (PyVal.obj a) t).isDict) = true
              · -- first pass assigned the mapping wholesale
                have hctx' := updEntry_dict_wholesale (PyVal.obj a) t mm hph hbr
                have hDt : attrLookup
                    (updateList (updEntry (PyVal.obj a) t (PyVal.dict mm)) rest) t =
                    some (PyVal.dict mm) := by
                  rw [attrLookup_updateList_not_mem _ _ _ ht, hctx',
                    attrLookup_pysetattr_self]
                have hpgD : pygetattr
                    (updateList (updEntry (PyVal.obj a) t (PyVal.dict mm)) rest) t =
                    PyVal.dict mm := by
                  rw [pygetattr, hDt]
                  rfl
                rw [updEntry_dict_wholesale _ _ _ hph
                  (by rw [hpgD]; rfl)]
                exact pysetattr_attrLookup_id _ _ _ hDt
              · -- first pass recursed into the existing attribute
                have hbrF : ((pygetattr (PyVal.obj a) t).isNone
                    || (pygetattr (PyVal.obj a) t).isDict) = false := by
                  simpa using hbr
                set attr0 := pygetattr (PyVal.obj a) t with hattr0
                set w := updateAttributes attr0 (PyVal.dict mm) with hwdef
                have hctx' : updEntry (PyVal.obj a) t (PyVal.dict mm) =
                    pysetattr (PyVal.obj a) t w :=
                  updEntry_dict_recurse (PyVal.obj a) t mm hph hbrF
                have hDt : attrLookup
                    (updateList (updEntry (PyVal.obj a) t (PyVal.dict mm)) rest) t =
                    some w := by
                  rw [attrLookup_updateList_not_mem _ _ _ ht, hctx',
                    attrLookup_pysetattr_self]
                have hpgD : pygetattr
                    (updateList (updEntry (PyVal.obj a) t (PyVal.dict mm)) rest) t =
                    w := by
                  rw [pygetattr, hDt]
                  rfl
                have hmm_size : sizeOf mm ≤ n := by
                  simp only [List.cons.sizeOf_spec, Prod.mk.sizeOf_spec,
                    PyVal.dict.sizeOf_spec] at hm
                  omega
                have hmm_wf : wfList mm = true := by
                  rw [wfConfig] at hv
                  exact hv
                have hwidem : updateAttributes w (PyVal.dict mm) = w := by
                  by_cases hao : attr0.isObj = true
                  · rw [hwdef, update_dict, update_dict]
                    exact ih mm hmm_size hmm_wf attr0
                  · have hw_eq : w = attr0 := by
                      rw [hwdef, update_dict]
                      exact updateList_nonobj _ _ (by simpa using hao)
                    rw [hw_eq, update_dict]
                    exact updateList_nonobj _ _ (by simpa using hao)
                have hwbr : (w.isNone || w.isDict) = false := by
                  by_cases hao : attr0.isObj = true
                  · have hwobj : w.isObj = true := by
                      rw [hwdef, update_dict, updateList_isObj]
                      exact hao
                    obtain ⟨h1, h2⟩ := isObj_not_none_dict _ hwobj
                    simp [h1, h2]
                  · have hw_eq : w = attr0 := by
                      rw [hwdef, update_dict]
                      exact updateList_nonobj _ _ (by simpa using hao)
                    rw [hw_eq]
                    exact hbrF
                rw [updEntry_dict_recurse _ _ _ hph (by rw [hpgD]; exact hwbr),
                  hpgD, hwidem]
                exact pysetattr_attrLookup_id _ _ _ hDt
            · -- a non-mapping value: plain assignment both times
              have hvdF : v.isDict = false := by simpa using hvd
              have hctx' := updEntry_nondict_eq (PyVal.obj a) t v hph hvdF
              have hDt : attrLookup
                  (updateList (updEntry (PyVal.obj a) t v) rest) t = some v := by
                rw [attrLookup_updateList_not_mem _ _ _ ht, hctx',
                  attrLookup_pysetattr_self]
              rw [updEntry_nondict_eq _ _ _ hph hvdF]
              exact pysetattr_attrLookup_id _ _ _ hDt
          · -- a non-object context is untouched by every pass
            have hno : ctx.isObj = false := by simpa using hobj
            have h1 : updEntry ctx t v = ctx := updEntry_nonobj _ _ _ hno
            rw [h1, updateList_nonobj _ _ hno, h1]
      rw [key]
      exact ih rest hrest_size hr (updEntry ctx t v)

theorem wfConfig_dict (m : List (String × PyVal)) :
    wfConfig (PyVal.dict m) = wfList m := by
  simp [wfConfig]

/-! ## Claim C4: the attribute applier's per-key policy -/

/-- C4.  For every context object and stage body, `_update_attributes` treats
each body entry by the policy of `specApplyC4`, folded over the entries in
order: a non-reserved key with a non-mapping value is set directly; a mapping
value recurses into the context's existing attribute exactly when that
attribute exists and is neither `None` nor a plain mapping, and is otherwise
set wholesale; and the three reserved keys `args`, `kwargs`, `results` are
never applied as attributes. -/
theorem spec_C4_attribute_applier :
    (∀ (ctx : PyVal) (m : List (String × PyVal)),
        updateAttributes ctx (PyVal.dict m) = m.foldl specApplyC4 ctx)
    ∧ (∀ (ctx v : PyVal) (t : String), keyMem t _PHONY = true →
        updateAttributes ctx (PyVal.dict [(t, v)]) = ctx) := by
  constructor
  · intro ctx m
    rw [update_dict]
    exact updateList_eq_foldl m ctx
  · intro ctx v t h
    rw [update_dict, updateList_cons, updEntry_phony _ _ _ h, updateList_nil]

/-- Witness for C4 at a concrete input: the reserved key `results` is left
unapplied on a concrete object. -/
theorem spec_C4_attribute_applier_witness :
    keyMem "results" _PHONY = true ∧
      updateAttributes (PyVal.obj [("conv_tol", PyVal.int 0)])
          (PyVal.dict [("results", PyVal.str "e_tot")]) =
        PyVal.obj [("conv_tol", PyVal.int 0)] :=
  ⟨by decide, spec_C4_attribute_applier.2 _ _ _ (by decide)⟩

/-! ## Claim C10: `None`-valued attributes and non-mapping bodies -/

/-- C10.  In `_update_attributes`, a body key with a mapping value whose
context attribute exists but holds `None` is set wholesale — the same
treatment as an absent attribute — and is not recursed into; and a body that
is not a mapping at all leaves the context unchanged. -/
theorem spec_C10_none_attribute_and_nondict :
    (∀ (a : List (String × PyVal)) (t : String) (mm : List (String × PyVal)),
        keyMem t _PHONY = false → getIn a t = some PyVal.none →
        updateAttributes (PyVal.obj a) (PyVal.dict [(t, PyVal.dict mm)]) =
          pysetattr (PyVal.obj a) t (PyVal.dict mm))
    ∧ (∀ (a : List (String × PyVal)) (t : String) (mm : List (String × PyVal)),
        keyMem t _PHONY = false → getIn a t = Option.none →
        updateAttributes (PyVal.obj a) (PyVal.dict [(t, PyVal.dict mm)]) =
          pysetattr (PyVal.obj a) t (PyVal.dict mm))
    ∧ (∀ ctx c : PyVal, c.isDict = false → updateAttributes ctx c = ctx) := by
  refine ⟨?_, ?_, ?_⟩
  · intro a t mm hph h
    have hpg : pygetattr (PyVal.obj a) t = PyVal.none := by
      simp [pygetattr, attrLookup, h]
    rw [update_dict, updateList_cons,
      updEntry_dict_wholesale _ _ _ hph (by rw [hpg]; rfl), updateList_nil]
  · intro a t mm hph h
    have hpg : pygetattr (PyVal.obj a) t = PyVal.none := by
      simp [pygetattr, attrLookup, h]
    rw [update_dict, updateList_cons,
      updEntry_dict_wholesale _ _ _ hph (by rw [hpg]; rfl), updateList_nil]
  · intro ctx c h
    exact update_nondict ctx c h

/-- Witness for C10 at concrete inputs: an attribute holding `None`, an
absent attribute, and a non-mapping body. -/
theorem spec_C10_none_attribute_witness :
    (getIn [("grids", PyVal.none)] "grids" = some PyVal.none ∧
      updateAttributes (PyVal.obj [("grids", PyVal.none)])
          (PyVal.dict [("grids", PyVal.dict [("level", PyVal.int 3)])]) =
        pysetattr (PyVal.obj [("grids", PyVal.none)]) "grids"
          (PyVal.dict [("level", PyVal.int 3)]))
    ∧ (getIn [] "grids" = Option.none ∧
      updateAttributes (PyVal.obj []) (PyVal.dict [("grids", PyVal.dict [])]) =
        pysetattr (PyVal.obj []) "grids" (PyVal.dict []))
    ∧ updateAttributes (PyVal.obj []) (PyVal.str "x") = PyVal.obj [] :=
  ⟨⟨rfl, spec_C10_none_attribute_and_nondict.1 _ _ _ (by decide) rfl⟩,
   ⟨rfl, spec_C10_none_attribute_and_nondict.2.1 _ _ _ (by decide) rfl⟩,
   spec_C10_none_attribute_and_nondict.2.2 _ _ (by decide)⟩

/-! ## Claim C8: idempotence of attribute application -/

/-- C8.  Attribute application is idempotent: for every context and every
body mapping (a parsed configuration mapping, so with pairwise-distinct keys
at every level), applying `_update_attributes` with the same body twice
yields the same attribute state as applying it once. -/
theorem spec_C8_attribute_application_idempotent :
    ∀ c : PyVal, wfConfig c = true → ∀ ctx : PyVal,
      updateAttributes (updateAttributes ctx c) c = updateAttributes ctx c := by
  intro c hwf ctx
  by_cases hd : c.isDict = true
  · obtain ⟨m, rfl⟩ : ∃ m, c = PyVal.dict m := by
      cases c <;> simp_all [PyVal.isDict]
    rw [update_dict, update_dict]
    rw [wfConfig_dict] at hwf
    exact updateList_idem_aux (sizeOf m) m le_rfl hwf ctx
  · have hF : c.isDict = false := by simpa using hd
    rw [update_nondict ctx c hF]
    exact update_nondict ctx c hF

/-- Witness for C8 at a concrete input: a body with a scalar entry and a
nested mapping entry, applied twice to an object exposing a sub-object. -/
theorem spec_C8_idempotent_witness :
    wfConfig (PyVal.dict [("conv_tol", PyVal.int 1),
        ("grids", PyVal.dict [("level", PyVal.int 3)])]) = true ∧
      updateAttributes
          (updateAttributes (PyVal.obj [("grids", PyVal.obj [("level", PyVal.int 9)])])
            (PyVal.dict [("conv_tol", PyVal.int 1),
              ("grids", PyVal.dict [("level", PyVal.int 3)])]))
          (PyVal.dict [("conv_tol", PyVal.int 1),
            ("grids", PyVal.dict [("level", PyVal.int 3)])]) =
        updateAttributes (PyVal.obj [("grids", PyVal.obj [("level", PyVal.int 9)])])
          (PyVal.dict [("conv_tol", PyVal.int 1),
            ("grids", PyVal.dict [("level", PyVal.int 3)])]) := by
  have hwf : wfConfig (PyVal.dict [("conv_tol", PyVal.int 1),
      ("grids", PyVal.dict [("level", PyVal.int 3)])]) = true := by
    simp [wfConfig, wfList, keysOfL, keyMem]
  exact ⟨hwf, spec_C8_attribute_application_idempotent _ hwf _⟩

/-! ## Claim C3: the mean-field stage's two-pass order -/

theorem filterMap_getIn_eq (config : List (String × PyVal)) (l : List String) :
    l.filterMap (fun k => (getIn config k).map (fun v => (k, v))) =
      (l.filter (fun k => (getIn config k).isSome)).map
        (fun k => (k, (getIn config k).getD PyVal.none)) := by
  induction l with
  | nil => rfl
  | cons hd tl ih =>
    cases hg : getIn config hd with
    | none => simp [List.filterMap_cons, List.filter_cons, hg, ih]
    | some v => simp [List.filterMap_cons, List.filter_cons, hg, ih]

/-- C3.  Every mean-field stage body is split into the plain attribute
assignments and the fixed modifier set: the trace of `handle_scf` is exactly
all plain (non-modifier, non-reserved) attribute assignments in document
order, then one modifier call per modifier present in the body taking its own
submapping as arguments, in the declared order of the modifier list rather
than document order, then — only after both passes — the `run()` trigger.
The second conjunct shows a body listing `newton` before `density_fit` still
calls `density_fit` first. -/
theorem spec_C3_scf_two_pass :
    (∀ config : List (String × PyVal),
        handle_scf_events config = scfSpecTrace config)
    ∧ handle_scf_events
        [("newton", PyVal.dict []), ("conv_tol", PyVal.int 1),
         ("density_fit", PyVal.dict [])] =
      [SEvent.attrE "conv_tol" (PyVal.int 1),
       SEvent.modifierE "density_fit" (PyVal.dict []),
       SEvent.modifierE "newton" (PyVal.dict []),
       SEvent.runE] := by
  constructor
  · intro config
    unfold handle_scf_events scfSpecTrace updateTrace scfPass1 scfPass2
    rw [filterMap_getIn_eq, List.filter_filter, List.map_map]
    have hcomm : (fun a : String × PyVal => !keyMem a.1 _PHONY && !keyMem a.1 mf_methods)
        = (fun kv : String × PyVal => !keyMem kv.1 mf_methods && !keyMem kv.1 _PHONY) := by
      funext kv
      exact Bool.and_comm _ _
    rw [hcomm]
    rfl
  · rfl

/-! ## Claim C1: the stage-classification precedence -/

theorem lookupH_none_iff (l : List (String × HKind)) (t : String) :
    lookupH l t = Option.none ↔ keyMem t (l.map Prod.fst) = false := by
  induction l with
  | nil => simp [lookupH, keyMem]
  | cons hd tl ih =>
    obtain ⟨k, h⟩ := hd
    by_cases hk : k = t <;> simp [lookupH, keyMem, hk, ih]

/-- Counterexample to C1 as stated.  The claim's classifier sends the key
`version` — which matches the structural table only after uppercasing — to
the generic post-method handler, but the code raises `KeyError` there: the
handler-table membership test uppercases the key while the handler lookup
does not (cli.py lines 420-421), so the stage is neither dispatched
structurally nor allowed to fall through. -/
theorem spec_C1_counterexample :
    classify "version" = Except.error "KeyError: version" ∧
      classifySpecC1 "version" = StageKind.postscfStage := by
  constructor <;> rfl

/-- C1, amended no further than the counterexample forces.  Classification
follows the stated precedence with one correction at step (1): when the
uppercased base key is in the structural table, the handler is looked up
under the raw base key — a structural dispatch when the base key is exactly
a table entry and a fatal `KeyError` when it matches only after uppercasing;
steps (2)-(5) — mean-field set membership, the case-insensitive `CAS` head,
the `.` test, the generic fallthrough — are exactly as claimed, and the key
`CASSCF` dispatches to the multi-configuration handler, never to the generic
post-method branch. -/
theorem spec_C1_amended_precedence :
    (∀ token : String, classify token = classifyAmended token)
    ∧ classify "CASSCF" = Except.ok StageKind.mcscfStage := by
  constructor
  · intro token
    unfold classify classifyAmended
    by_cases hU : keyMem (pyUpper (pyBase token)) handlerKeys = true
    · rw [if_pos hU, if_pos hU]
      by_cases hK : keyMem (pyBase token) handlerKeys = true
      · have hno : lookupH handlersTable (pyBase token) ≠ Option.none := by
          intro h0
          rw [lookupH_none_iff] at h0
          have : keyMem (pyBase token) handlerKeys = false := h0
          rw [this] at hK
          exact Bool.false_ne_true hK
        obtain ⟨h, hh⟩ := Option.ne_none_iff_exists'.mp hno
        rw [hh, if_pos hK]
        rfl
      · have hnone : lookupH handlersTable (pyBase token) = Option.none := by
          rw [lookupH_none_iff]
          simpa using hK
        rw [hnone, if_neg (by simp [hK])]
    · have hU' : keyMem (pyUpper (pyBase token)) handlerKeys = false := by
        simpa using hU
      simp [hU']
  · rfl

/-! ## Claim C2: the multi-configuration constructor arguments -/

theorem splitOnChar_not_mem (sep : Char) (l : List Char)
    (h : charMem sep l = false) : splitOnChar sep l = [l] := by
  induction l with
  | nil => rfl
  | cons c cs ih =>
    rw [charMem] at h
    by_cases hc : c = sep
    · simp [hc] at h
    · simp only [if_neg hc] at h
      simp [splitOnChar, hc, ih h]

theorem splitOnChar_append_sep (sep : Char) (xs ys : List Char)
    (h : charMem sep xs = false) :
    splitOnChar sep (xs ++ sep :: ys) = xs :: splitOnChar sep ys := by
  induction xs with
  | nil => simp [splitOnChar]
  | cons c cs ih =>
    rw [charMem] at h
    by_cases hc : c = sep
    · simp [hc] at h
    · simp only [if_neg hc] at h
      simp [splitOnChar, hc, ih h]

theorem numRunsAux_digits (ds : List Char) :
    ∀ (acc rest : List Char), allDigit ds = true →
      numRunsAux (ds ++ rest) acc = numRunsAux rest (ds.reverse ++ acc) := by
  induction ds with
  | nil => intro acc rest _; simp
  | cons d ds ih =>
    intro acc rest h
    rw [allDigit, Bool.and_eq_true] at h
    rw [List.cons_append, numRunsAux, if_pos h.1, ih _ _ h.2]
    simp

theorem numRunsAux_skip (xs : List Char) :
    ∀ ys : List Char, allNonDigit xs = true →
      numRunsAux (xs ++ ys) [] = numRunsAux ys [] := by
  induction xs with
  | nil => intro ys _; rfl
  | cons c cs ih =>
    intro ys h
    rw [allNonDigit, Bool.and_eq_true, Bool.not_eq_true'] at h
    rw [List.cons_append, numRunsAux, if_neg (by simp [h.1]), if_pos rfl]
    exact ih _ h.2

theorem numRunsAux_stop (c : Char) (rest acc : List Char)
    (hc : c.isDigit = false) (hacc : acc ≠ []) :
    numRunsAux (c :: rest) acc = acc.reverse :: numRunsAux rest [] := by
  rw [numRunsAux, if_neg (by simp [hc]), if_neg hacc]

theorem numRuns_shape (name p q : List Char)
    (hn : allNonDigit name = true) (hp : allDigit p = true) (hpne : p ≠ [])
    (hq : allDigit q = true) (hqne : q ≠ []) :
    numRuns (name ++ '(' :: (p ++ ',' :: (q ++ [')']))) = [p, q] := by
  unfold numRuns
  rw [numRunsAux_skip _ _ hn, numRunsAux, if_neg (by simp), if_pos rfl,
    numRunsAux_digits _ _ _ hp, List.append_nil,
    numRunsAux_stop _ _ _ (by simp) (by simpa using hpne),
    List.reverse_reverse, numRunsAux_digits _ _ _ hq, List.append_nil,
    numRunsAux_stop _ _ _ (by simp) (by simpa using hqne),
    List.reverse_reverse]
  rfl

theorem charMem_append (c : Char) (xs ys : List Char) :
    charMem c (xs ++ ys) = (charMem c xs || charMem c ys) := by
  induction xs with
  | nil => simp [charMem]
  | cons d ds ih =>
    by_cases hd : d = c <;> simp [charMem, hd, ih]

theorem allDigit_no_paren (p : List Char) (h : allDigit p = true) :
    charMem '(' p = false := by
  induction p with
  | nil => rfl
  | cons d ds ih =>
    rw [allDigit, Bool.and_eq_true] at h
    rw [charMem, if_neg ?_]
    · exact ih h.2
    · intro hd
      rw [hd] at h
      simp at h

/-- Counterexample to C2 as stated.  For the key `CASSCF(6,4)` the claim
reads the pair as (orbitals, electrons) and so has the constructor called
with 6 first and 4 second; the code unpacks `ne, no = re.findall(...)` —
electron count first — and calls the constructor `(int(no), int(ne))`
(cli.py lines 316, 329), that is with 4 first and 6 second. -/
theorem spec_C2_counterexample :
    handle_mcscf_args "CASSCF(6,4)" = some ("CASSCF", 4, 6) ∧
      mcscfClaimArgs "CASSCF(6,4)" = some ("CASSCF", 6, 4) := by
  constructor <;> rfl

/-- C2, amended no further than the counterexample forces: the handler
extracts the two counts of the parenthesized pair by a numeric-token scan
and interprets the first as the number of electrons and the second as the
number of orbitals, constructing the multi-configuration object with the
orbital count (the second token) as its first constructor argument and the
electron count (the first token) as its second; for `CASSCF(4,4)` the
resolved electron count and orbital count are both 4. -/
theorem spec_C2_amended_ctor_args :
    ∀ name p q : List Char,
      allNonDigit name = true → charMem '(' name = false →
      allDigit p = true → p ≠ [] → allDigit q = true → q ≠ [] →
      handle_mcscf_argsL (name ++ '(' :: (p ++ ',' :: (q ++ [')']))) =
        some (name, natOfDigits q, natOfDigits p) := by
  intro name p q hn hnp hp hpne hq hqne
  have hrest : charMem '(' (p ++ ',' :: (q ++ [')'])) = false := by
    rw [charMem_append, allDigit_no_paren p hp, charMem, if_neg (by decide),
      charMem_append, allDigit_no_paren q hq, charMem, if_neg (by decide)]
    rfl
  unfold handle_mcscf_argsL
  rw [splitOnChar_append_sep _ _ _ hnp, splitOnChar_not_mem _ _ hrest,
    numRuns_shape name p q hn hp hpne hq hqne]

/-- Witness for the amended C2 on `CASSCF(4,4)`: both resolved counts are 4
and the constructor receives (4, 4). -/
theorem spec_C2_amended_ctor_args_witness :
    allNonDigit ['C', 'A', 'S', 'S', 'C', 'F'] = true ∧
      handle_mcscf_argsL
          (['C', 'A', 'S', 'S', 'C', 'F'] ++ '(' :: (['4'] ++ ',' :: (['4'] ++ [')']))) =
        some (['C', 'A', 'S', 'S', 'C', 'F'], 4, 4) :=
  ⟨by decide,
   spec_C2_amended_ctor_args ['C', 'A', 'S', 'S', 'C', 'F'] ['4'] ['4']
     (by decide) (by decide) (by decide) (by decide) (by decide) (by decide)⟩

/-! ## Claim C5: geometry optimization replaces the context by the new
molecule -/

/-- C5.  For every context and stage body, `handle_geomopt` wraps the
context's gradients object in an optimizer, applies attributes, executes,
and returns the optimizer's resulting molecule/cell descriptor — carrying
the newly optimized geometry tag, one past the original — never the
optimizer object itself; and the stage loop threads exactly that descriptor
to every subsequent stage, so they operate on the optimized geometry, whose
tag differs from the original one. -/
theorem spec_C5_geomopt_new_molecule :
    (∀ (ctx : PObj) (body : PyVal),
        handle_geomopt ctx body = PObj.mole (baseGeom ctx + 1) [])
    ∧ (∀ (ctx : PObj) (body : PyVal), isMoleP (handle_geomopt ctx body) = true)
    ∧ (∀ (ctx : PObj) (body : PyVal), isOptimP (handle_geomopt ctx body) = false)
    ∧ (∀ (ctx : PObj) (body : PyVal) (rest : List (String × PyVal)),
        runStages (some ctx) (("GEOMOPT", body) :: rest) =
          runStages (some (handle_geomopt ctx body)) rest)
    ∧ (∀ ctx : PObj, ((baseGeom ctx + 1) == baseGeom ctx) = false) := by
  have hmain : ∀ (ctx : PObj) (body : PyVal),
      handle_geomopt ctx body = PObj.mole (baseGeom ctx + 1) [] := by
    intro ctx body
    unfold handle_geomopt
    by_cases hg : isGradP ctx = true
    · simp [hg, pobjUpdate, runP, molP]
    · simp [hg, pobjUpdate, runP, molP, baseGeom]
  refine ⟨hmain, ?_, ?_, ?_, ?_⟩
  · intro ctx body
    rw [hmain]
    rfl
  · intro ctx body
    rw [hmain]
    rfl
  · intro ctx body rest
    have hd : dispatchStage "GEOMOPT" body (some ctx) =
        Except.ok (some (handle_geomopt ctx body)) := rfl
    rw [runStages, hd]
  · intro ctx
    rw [beq_eq_false_iff_ne]
    exact Nat.succ_ne_self _

/-! ## Claim C6: the result extractor -/

theorem getIn_none_iff (a : List (String × PyVal)) (t : String) :
    getIn a t = Option.none ↔ keyMem t (keysOfL a) = false := by
  induction a with
  | nil => simp [getIn, keysOfL, keyMem]
  | cons hd tl ih =>
    obtain ⟨k, v⟩ := hd
    by_cases hk : k = t <;> simp [getIn, keysOfL, keyMem, hk, ih]

theorem setIn_absent (a : List (String × PyVal)) (t : String) (v : PyVal)
    (h : getIn a t = Option.none) : setIn a t v = a ++ [(t, v)] := by
  induction a with
  | nil => rfl
  | cons hd tl ih =>
    obtain ⟨k, w⟩ := hd
    by_cases hk : k = t
    · simp [getIn, hk] at h
    · simp only [getIn, if_neg hk] at h
      simp [setIn, hk, ih h]

theorem keyMem_append (t : String) (xs ys : List String) :
    keyMem t (xs ++ ys) = (keyMem t xs || keyMem t ys) := by
  induction xs with
  | nil => simp [keyMem]
  | cons k ks ih =>
    by_cases hk : k = t <;> simp [keyMem, hk, ih]

theorem extractLoop_ok_append (ex : PyVal → String → Except String PyVal)
    (ctx : PyVal) (f : String → PyVal) (ts : List String) :
    ∀ acc : List (String × PyVal), nodupKeys ts = true →
      (∀ t : String, keyMem t ts = true → keyMem t (keysOfL acc) = false) →
      (∀ t : String, keyMem t ts = true →
        resolveTokenE ex ctx t = Except.ok (f t)) →
      extractLoop ex ctx ts acc =
        Except.ok (acc ++ ts.map (fun tk => (tk, postProcess (f tk)))) := by
  induction ts with
  | nil => intro acc _ _ _; simp [extractLoop]
  | cons t ts ih =>
    intro acc hnd hdisj hres
    rw [nodupKeys, Bool.and_eq_true, Bool.not_eq_true'] at hnd
    have hrt : resolveTokenE ex ctx t = Except.ok (f t) :=
      hres t (by rw [keyMem, if_pos rfl])
    simp only [extractLoop, hrt]
    have habs : getIn acc t = Option.none := by
      rw [getIn_none_iff]
      exact hdisj t (by rw [keyMem, if_pos rfl])
    rw [setIn_absent _ _ _ habs, ih _ hnd.2 ?_ ?_]
    · simp
    · intro u hu
      have hut : ¬ t = u := by
        intro he
        subst he
        rw [hnd.1] at hu
        exact Bool.false_ne_true hu
      have h1 : keyMem u (keysOfL acc) = false :=
        hdisj u (by rw [keyMem, if_neg hut]; exact hu)
      have h2 : keysOfL (acc ++ [(t, postProcess (f t))]) = keysOfL acc ++ [t] := by
        simp [keysOfL]
      rw [h2, keyMem_append, h1, keyMem, if_neg hut]
      rfl
    · intro u hu
      refine hres u ?_
      rw [keyMem]
      split
      · rfl
      · exact hu

/-- C6.  The result extractor of a stage body in execution mode: a `None`
body or a body without a `results` key is a no-op; a single string request
is normalized to a one-element list; each path expression is resolved
segment by segment against the stage's context (`ex` standing for the raw
evaluation of indexing/call segments, plain segments being the raising
attribute lookup of cli.py line 200), a callable final value is invoked
with no arguments and numeric array-like values become plain nested lists
while everything else passes through; the resolved mapping, keyed by the
full original path expression in request order, replaces the body's
`results` key in place; and a failing path resolution aborts extraction
with that error instead of storing anything. -/
theorem spec_C6_extract_results :
    (∀ (ex : PyVal → String → Except String PyVal) (ctx : PyVal),
        extract_results ex PyVal.none ctx = Except.ok PyVal.none)
    ∧ (∀ (ex : PyVal → String → Except String PyVal) (ctx : PyVal)
          (m : List (String × PyVal)),
        getIn m "results" = Option.none →
        extract_results ex (PyVal.dict m) ctx = Except.ok (PyVal.dict m))
    ∧ (∀ (ex : PyVal → String → Except String PyVal) (ctx : PyVal)
          (m : List (String × PyVal)) (s : String) (v : PyVal),
        getIn m "results" = some (PyVal.str s) →
        resolveTokenE ex ctx s = Except.ok v →
        extract_results ex (PyVal.dict m) ctx =
          Except.ok (PyVal.dict (setIn m "results"
            (PyVal.dict [(s, postProcess v)]))))
    ∧ (∀ (ex : PyVal → String → Except String PyVal) (ctx : PyVal)
          (m : List (String × PyVal)) (xs : List PyVal) (ts : List String)
          (f : String → PyVal),
        getIn m "results" = some (PyVal.list xs) →
        strTokensE xs = Except.ok ts →
        nodupKeys ts = true →
        (∀ t : String, keyMem t ts = true →
          resolveTokenE ex ctx t = Except.ok (f t)) →
        extract_results ex (PyVal.dict m) ctx =
          Except.ok (PyVal.dict (setIn m "results"
            (PyVal.dict (ts.map (fun tk => (tk, postProcess (f tk))))))))
    ∧ (∀ (ex : PyVal → String → Except String PyVal) (ctx : PyVal)
          (m : List (String × PyVal)) (s e : String),
        getIn m "results" = some (PyVal.str s) →
        resolveTokenE ex ctx s = Except.error e →
        extract_results ex (PyVal.dict m) ctx = Except.error e) := by
  refine ⟨?_, ?_, ?_, ?_, ?_⟩
  · intro ex ctx
    rfl
  · intro ex ctx m hres
    simp [extract_results, hres]
  · intro ex ctx m s v hres hok
    simp only [extract_results, hres, requestTokens, extractLoop, hok]
    rfl
  · intro ex ctx m xs ts f hres htok hnd hall
    simp only [extract_results, hres, requestTokens, htok]
    rw [extractLoop_ok_append ex ctx f ts [] hnd ?_ hall]
    · rfl
    · intro t _
      rfl
  · intro ex ctx m s e hres herr
    simp only [extract_results, hres, requestTokens, extractLoop, herr]

/-- Witness for C6 at concrete inputs, following spec scenario 5: a
`results` request of `mo_energy` whose resolved attribute is a numeric
array yields a plain nested list; and a request naming a missing attribute
aborts extraction with `AttributeError`. -/
theorem spec_C6_extract_results_witness :
    (getIn [("results", PyVal.str "mo_energy")] "results" =
        some (PyVal.str "mo_energy") ∧
      resolveTokenE (fun cur _ => Except.ok cur)
          (PyVal.obj [("mo_energy",
            PyVal.ndarray (NpArr.arr [NpArr.scalar 1, NpArr.scalar 2]))])
          "mo_energy" =
        Except.ok (PyVal.ndarray (NpArr.arr [NpArr.scalar 1, NpArr.scalar 2])) ∧
      extract_results (fun cur _ => Except.ok cur)
          (PyVal.dict [("results", PyVal.str "mo_energy")])
          (PyVal.obj [("mo_energy",
            PyVal.ndarray (NpArr.arr [NpArr.scalar 1, NpArr.scalar 2]))]) =
        Except.ok (PyVal.dict [("results",
          PyVal.dict [("mo_energy", PyVal.list [PyVal.int 1, PyVal.int 2])])]))
    ∧ (resolveTokenE (fun cur _ => Except.ok cur) (PyVal.obj []) "e_tot" =
        Except.error "AttributeError: e_tot" ∧
      extract_results (fun cur _ => Except.ok cur)
          (PyVal.dict [("results", PyVal.str "e_tot")]) (PyVal.obj []) =
        Except.error "AttributeError: e_tot") := by
  constructor
  · refine ⟨rfl, rfl, ?_⟩
    have h := spec_C6_extract_results.2.2.1 (fun cur _ => Except.ok cur)
      (PyVal.obj [("mo_energy",
        PyVal.ndarray (NpArr.arr [NpArr.scalar 1, NpArr.scalar 2]))])
      [("results", PyVal.str "mo_energy")] "mo_energy"
      (PyVal.ndarray (NpArr.arr [NpArr.scalar 1, NpArr.scalar 2])) rfl rfl
    rw [h]
    rfl
  · exact ⟨rfl, spec_C6_extract_results.2.2.2.2 (fun cur _ => Except.ok cur)
      (PyVal.obj []) [("results", PyVal.str "e_tot")] "e_tot"
      "AttributeError: e_tot" rfl rfl⟩

/-! ## Claim C7: solvent-model failures are fatal -/

/-- C7.  The solvent-model handler raises a fatal error whenever the base
key is not one of the permitted solvent-model names, and raises a fatal
error whenever the current context is not a mean-field object; and any
handler error aborts the stage loop immediately — the remaining stages are
never executed, nothing is skipped over or retried. -/
theorem spec_C7_solvent_model_fatal :
    (∀ (token : String) (octx : Option PObj) (body : PyVal),
        keyMem (pyBase token) solventPermitted = false →
        handle_solvent_model token octx body =
          Except.error ("Invalid solvent model " ++ pyBase token))
    ∧ (∀ (token : String) (ctx : PObj) (body : PyVal),
        isSCFP ctx = false →
        ∃ e : String, handle_solvent_model token (some ctx) body = Except.error e)
    ∧ (∀ (token : String) (body : PyVal) (octx : Option PObj)
          (rest : List (String × PyVal)) (e : String),
        dispatchStage token body octx = Except.error e →
        runStages octx ((token, body) :: rest) = Except.error e) := by
  refine ⟨?_, ?_, ?_⟩
  · intro token octx body h
    simp [handle_solvent_model, h]
  · intro token ctx body h
    by_cases hk : keyMem (pyBase token) solventPermitted = true
    · exact ⟨"Solvent model can be applied to SCF object only",
        by simp [handle_solvent_model, hk, h]⟩
    · exact ⟨"Invalid solvent model " ++ pyBase token,
        by simp [handle_solvent_model, hk]⟩
  · intro token body octx rest e h
    rw [runStages, h]

/-- Witness for C7 at concrete inputs: a `SOLVENT` stage key is not a
permitted solvent-model name and aborts the whole run; a molecule context is
not a mean-field object and is rejected under a permitted name. -/
theorem spec_C7_solvent_model_fatal_witness :
    (keyMem (pyBase "SOLVENT") solventPermitted = false ∧
      handle_solvent_model "SOLVENT" (some (PObj.mole 0 [])) PyVal.none =
        Except.error ("Invalid solvent model " ++ pyBase "SOLVENT"))
    ∧ (isSCFP (PObj.mole 0 []) = false ∧
      ∃ e, handle_solvent_model "ddCOSMO" (some (PObj.mole 0 [])) PyVal.none =
        Except.error e)
    ∧ runStages (some (PObj.mole 0 [])) [("SOLVENT", PyVal.none)] =
        Except.error "Invalid solvent model SOLVENT" :=
  ⟨⟨by decide, spec_C7_solvent_model_fatal.1 _ _ _ (by decide)⟩,
   ⟨rfl, spec_C7_solvent_model_fatal.2.1 _ _ _ rfl⟩,
   spec_C7_solvent_model_fatal.2.2 "SOLVENT" PyVal.none
     (some (PObj.mole 0 [])) [] "Invalid solvent model SOLVENT" rfl⟩

/-! ## Claim C9: the import stage -/

/-- C9.  The claim says an import stage loads the named modules as a pure
side effect and returns the running context unchanged.  The code cannot do
this: `_Task.run` calls `handlers[klass](token, ctx)` with two arguments
while `handle_import` accepts only `entry_name` (cli.py lines 157, 421), so
every `IMPORT` stage aborts the run with a `TypeError` — with or without a
prior context.  (Were the arity fixed, the body would still call the builtin
`set(cur_mod, root_mod, ...)` instead of `setattr` at cli.py lines 171 and
176 — another `TypeError` — and `run` would rebind the context to the
handler's `None` return value rather than leave it unchanged.) -/
theorem spec_C9_import_stage_crashes :
    runStages (some (PObj.mole 0 [])) [("IMPORT", PyVal.str "pyscf")] =
        Except.error
          "TypeError: handle_import() takes 2 positional arguments but 3 were given"
    ∧ runStages Option.none [("IMPORT", PyVal.str "pyscf")] =
        Except.error
          "TypeError: handle_import() takes 2 positional arguments but 3 were given" := by
  constructor <;> rfl

